import Mathlib

/-!
Verification of the Kyvro outbound dispatch pipeline against its
natural-language specification.

The development shallowly embeds, faithfully to the TypeScript source:

* `WhatsAppApiService.validatePhoneNumber` / `formatPhoneNumber` /
  `handleError` / the value-returning outcome of `sendMessage`
  (src/unnamed/part_010);
* the `SmartQueue` class (src/kyvro-desktop/src/lib/db-simple.ts):
  constructor option resolution, `add`, `addBatch`, `process` (the
  synchronous scheduling burst of the event loop), `processItem` (the retry
  lifecycle of one task), `checkRateLimit`, `clearQueue`, `pause`.

JS strings are embedded as `List Char`; JS numbers used by this code are
naturals (timestamps, counts, delays); a JS `x || default` on a numeric
option field is `jsOrNat` (0 and `undefined` are falsy); promises are
embedded by their settlement values (`Except`-shaped outcomes).
-/

set_option autoImplicit false

namespace Kyvro

/-! ## Phone number helpers (WhatsAppApiService) -/

/-- JS `phoneNumber.replace` with the non-digit pattern: keep only the decimal digits. -/
def digitsOnly (s : List Char) : List Char :=
  s.filter (fun c => c.isDigit)

/-- JS `s.startsWith(p)` specialised to a single-character pattern. -/
def startsWithChar (s : List Char) (c : Char) : Bool :=
  match s with
  | [] => false
  | d :: _ => d = c

/-- From the source, `WhatsAppApiService.validatePhoneNumber`:
strip non-digits, then require 8–15 digits and a leading `'1'`. -/
def validatePhoneNumber (phoneNumber : List Char) : Bool :=
  let cleanNumber := digitsOnly phoneNumber
  decide (8 ≤ cleanNumber.length) && decide (cleanNumber.length ≤ 15) &&
    startsWithChar cleanNumber '1'

/-- From the source, `WhatsAppApiService.formatPhoneNumber`: strip
non-digits, drop a leading `'+'` if present (the source keeps this branch
even though the strip already removed every `'+'`), then prepend the
default country code `'1'` when the number is 10 digits and does not
already start with `'1'`. -/
def formatPhoneNumber (phoneNumber : List Char) : List Char :=
  let cleanNumber := digitsOnly phoneNumber
  let cleanNumber :=
    if startsWithChar cleanNumber '+' then cleanNumber.drop 1 else cleanNumber
  if !startsWithChar cleanNumber '1' && cleanNumber.length = 10 then
    '1' :: cleanNumber
  else
    cleanNumber

/-! ## WhatsAppApiService error handling (`handleError`, `sendMessage`) -/

/-- The shape of an axios rejection as `handleError` discriminates it:
either the server responded with a status code outside 2xx (optionally
carrying `data?.error?.error_user_msg`), or the request got no response,
or the request setup itself raised (optionally carrying a message). -/
inductive AxiosFailure where
  | response (status : Nat) (errorUserMsg : Option (List Char))
  | request
  | setup (message : Option (List Char))
  deriving DecidableEq, Repr

/-- JS `x || default` on an optional string: `undefined` and `""` are
falsy. -/
def jsOrStr (x : Option (List Char)) (d : List Char) : List Char :=
  match x with
  | some s => if s.isEmpty then d else s
  | none => d

/-- From the source, `WhatsAppApiService.handleError`: a `switch` on the
response status with cases 400, 401, 403, 404, 429, 500 and a default,
then the no-response branch, then the setup branch. -/
def handleError : AxiosFailure → List Char
  | .response status data =>
    if status = 400 then jsOrStr data "Bad request - Invalid parameters".toList
    else if status = 401 then "Unauthorized - Invalid or expired access token".toList
    else if status = 403 then "Forbidden - Insufficient permissions".toList
    else if status = 404 then "Not found - Resource does not exist".toList
    else if status = 429 then "Rate limit exceeded - Please try again later".toList
    else if status = 500 then "Internal server error - Please try again later".toList
    else jsOrStr data ("API Error: ".toList ++ (Nat.repr status).toList)
  | .request => "Network error - Unable to connect to WhatsApp API".toList
  | .setup m => jsOrStr m "Unknown error occurred".toList

/-- The spec's closed error taxonomy. -/
inductive ErrorKind where
  | invalid_request
  | unauthorized
  | forbidden
  | not_found
  | rate_limited
  | provider_internal
  | network_unreachable
  | unknown
  deriving DecidableEq, Repr

/-- The classification `handleError` actually implements, branch for
branch: the six explicit `switch` cases map 400, 401, 403, 404, 429 to
their taxonomy kinds and 500 (only) to `provider_internal`; every other
status falls into the `default` case (`unknown`); no response is
`network_unreachable`; a setup error is `unknown`. -/
def codeErrorKind : AxiosFailure → ErrorKind
  | .response status _ =>
    if status = 400 then .invalid_request
    else if status = 401 then .unauthorized
    else if status = 403 then .forbidden
    else if status = 404 then .not_found
    else if status = 429 then .rate_limited
    else if status = 500 then .provider_internal
    else .unknown
  | .request => .network_unreachable
  | .setup _ => .unknown

/-- Follows the spec's words (for comparison with `codeErrorKind`):
`invalid_request` (400), `unauthorized` (401), `forbidden` (403),
`not_found` (404), `rate_limited` (429), `provider_internal` (5xx),
`network_unreachable` (no response received), `unknown` (anything
else). -/
def specErrorKind : AxiosFailure → ErrorKind
  | .response status _ =>
    if status = 400 then .invalid_request
    else if status = 401 then .unauthorized
    else if status = 403 then .forbidden
    else if status = 404 then .not_found
    else if status = 429 then .rate_limited
    else if 500 ≤ status ∧ status ≤ 599 then .provider_internal
    else .unknown
  | .request => .network_unreachable
  | .setup _ => .unknown

/-- The value type of `sendMessage`'s returned promise. -/
structure ApiResponse where
  success : Bool
  messageId : Option (List Char)
  error : Option (List Char)
  deriving DecidableEq, Repr

/-- The outcome of the awaited HTTP post inside `sendMessage`. -/
inductive SendAttempt where
  | ok (messageId : List Char)
  | fail (e : AxiosFailure)
  deriving DecidableEq, Repr

/-- From the source, `WhatsAppApiService.sendMessage`, by its settlement
value: missing credentials throw inside the `try`, the response
interceptor rejects HTTP failures with `handleError`'s error, and the
single `catch` converts every error into `{success: false, error:
message}`; a 2xx response yields `{success: true, messageId}`.  The
function is total: `sendMessage` always resolves with a value. -/
def sendMessage (credentialsPresent : Bool) (net : SendAttempt) : ApiResponse :=
  if !credentialsPresent then
    { success := false, messageId := none,
      error := some "No API credentials found".toList }
  else
    match net with
    | .ok msgId => { success := true, messageId := some msgId, error := none }
    | .fail e => { success := false, messageId := none,
                   error := some (handleError e) }

/-! ## SmartQueue data model -/

/-- JS `x || d` for an optional numeric option field: `undefined` and `0`
are falsy, so both select the default. -/
def jsOrNat (x : Option Nat) (d : Nat) : Nat :=
  match x with
  | some v => if v = 0 then d else v
  | none => d

/-- A `QueueItem` as `SmartQueue.add` builds it (the `data`, `execute`,
`resolve`, `reject` fields live outside the pure state; settlements are
tracked against the `id`). -/
structure QueueItem where
  id : Nat
  priority : Int
  attempts : Nat
  maxAttempts : Nat
  delay : Nat
  deriving DecidableEq, Repr

/-- The `QueueOptions` constructor argument: every field optional. -/
structure QueueOptions where
  maxConcurrency : Option Nat := none
  rateLimitPerSecond : Option Nat := none
  defaultMaxAttempts : Option Nat := none
  defaultDelay : Option Nat := none
  retryDelay : Option Nat := none
  deriving DecidableEq, Repr

/-- The `Required<QueueOptions>` record: the options as stored on the instance. -/
structure ResolvedOptions where
  maxConcurrency : Nat
  rateLimitPerSecond : Nat
  defaultMaxAttempts : Nat
  defaultDelay : Nat
  retryDelay : Nat
  deriving DecidableEq, Repr

/-- The `SmartQueue` constructor, from the source: each field is
`options.f || default` with defaults 5, 50, 3, 0, 1000. -/
def resolveOptions (options : QueueOptions) : ResolvedOptions :=
  { maxConcurrency := jsOrNat options.maxConcurrency 5
    rateLimitPerSecond := jsOrNat options.rateLimitPerSecond 50
    defaultMaxAttempts := jsOrNat options.defaultMaxAttempts 3
    defaultDelay := jsOrNat options.defaultDelay 0
    retryDelay := jsOrNat options.retryDelay 1000 }

/-- The per-call options of `SmartQueue.add`. -/
structure AddOptions where
  maxAttempts : Option Nat := none
  delay : Option Nat := none
  deriving DecidableEq, Repr

/-- The item `SmartQueue.add` constructs: `attempts: 0`,
`maxAttempts: options.maxAttempts || this.options.defaultMaxAttempts`,
`delay: options.delay || this.options.defaultDelay`. -/
def mkQueueItem (opts : ResolvedOptions) (id : Nat) (priority : Int)
    (options : AddOptions) : QueueItem :=
  { id := id
    priority := priority
    attempts := 0
    maxAttempts := jsOrNat options.maxAttempts opts.defaultMaxAttempts
    delay := jsOrNat options.delay opts.defaultDelay }

/-- From the source, `sortQueue`: a stable sort by descending priority
(`(a, b) => b.priority - a.priority` under JS's stable `Array.sort`). -/
def sortQueue (queue : List QueueItem) : List QueueItem :=
  queue.insertionSort (fun a b => b.priority ≤ a.priority)

/-- From the source, `checkRateLimit`: prune window entries with
`time > now - 1000` (computed over the integers, as in JS), reassign the
pruned list to `lastProcessTimes`, and compare its length with the cap.
Nothing is ever appended to the window anywhere in the class. -/
def checkRateLimit (cap : Nat) (lastProcessTimes : List Nat) (now : Nat) :
    List Nat × Bool :=
  let pruned := lastProcessTimes.filter
    (fun (time : Nat) => decide ((now : Int) - 1000 < (time : Int)))
  (pruned, decide (pruned.length < cap))

/-! ## SmartQueue: the retry lifecycle of a single item (`processItem`) -/

/-- A promise settlement. -/
inductive TaskResult (ε α : Type) where
  | resolved (a : α)
  | rejected (e : ε)
  deriving DecidableEq, Repr

/-- The full retry lifecycle of one item, from `processItem`:
`item.attempts++`, invoke the operation; on success resolve; on failure
reject if `item.attempts >= item.maxAttempts`, otherwise schedule a
re-queue after `this.options.retryDelay * Math.pow(2, item.attempts - 1)`
and run again.  `op k` is the outcome of the k-th invocation.  Returns
the settlement, the total number of invocations, and the successive
backoff delays. -/
def runItem {ε α : Type} (retryDelay : Nat) (op : Nat → Except ε α)
    (attempts maxAttempts : Nat) : TaskResult ε α × Nat × List Nat :=
  let a := attempts + 1
  match op a with
  | .ok v => (.resolved v, 1, [])
  | .error e =>
    if h : maxAttempts ≤ a then (.rejected e, 1, [])
    else
      let d := retryDelay * 2 ^ (a - 1)
      let r := runItem retryDelay op a maxAttempts
      (r.1, r.2.1 + 1, d :: r.2.2)
termination_by maxAttempts - attempts
decreasing_by simp only [not_le] at h; omega

/-! ## SmartQueue: the synchronous scheduling burst (`process`) -/

/-- The mutable fields of a `SmartQueue` instance that the synchronous
part of `process`, `add`, `pause` and `resume` touch. -/
structure SQ where
  queue : List QueueItem
  running : List Nat
  processing : Bool
  lastProcessTimes : List Nat
  deriving DecidableEq, Repr

/-- The fresh instance: empty queue, empty running set, `processing =
false`, empty rate window. -/
def initSQ : SQ :=
  { queue := [], running := [], processing := false, lastProcessTimes := [] }

/-- The `while` loop of `process`, from the source, run to the end of its
synchronous burst (an `await` on the rate limit ends the burst; fuel is
the queue length, which bounds the iterations since every continuing
iteration shifts one item).  Returns the state together with the items
whose operations were started (`running.add` + `processItem` invocation)
and the items parked in a `setTimeout` because of an artificial delay. -/
def processLoop (opts : ResolvedOptions) (now : Nat) :
    Nat → SQ → SQ × List QueueItem × List QueueItem
  | 0, s => (s, [], [])
  | fuel + 1, s =>
    if 0 < s.queue.length ∧ s.running.length < opts.maxConcurrency then
      let pr := checkRateLimit opts.rateLimitPerSecond s.lastProcessTimes now
      let s := { s with lastProcessTimes := pr.1 }
      if !pr.2 then (s, [], [])
      else
        match s.queue with
        | [] => (s, [], [])
        | item :: rest =>
          if 0 < item.delay then
            let r := processLoop opts now fuel { s with queue := rest }
            (r.1, r.2.1, item :: r.2.2)
          else
            let r := processLoop opts now fuel
              { s with queue := rest, running := item.id :: s.running }
            (r.1, item :: r.2.1, r.2.2)
    else (s, [], [])

/-- From the source, `process`: the `this.processing` re-entrancy guard,
the loop, then `this.processing = false`. -/
def process (opts : ResolvedOptions) (now : Nat) (s : SQ) :
    SQ × List QueueItem × List QueueItem :=
  if s.processing then (s, [], [])
  else
    let s1 := { s with processing := true }
    let r := processLoop opts now s1.queue.length s1
    ({ r.1 with processing := false }, r.2.1, r.2.2)

/-- From the source, `pause`: assign `this.processing = false` and nothing
else. -/
def pause (s : SQ) : SQ :=
  { s with processing := false }

/-- From the source, `resume`: call `process` unless the flag is set. -/
def resume (opts : ResolvedOptions) (now : Nat) (s : SQ) :
    SQ × List QueueItem × List QueueItem :=
  if s.processing then (s, [], []) else process opts now s

/-- The synchronous part of `add`, from the source: push the new item,
re-sort by priority, then call `process`. -/
def addTask (opts : ResolvedOptions) (now : Nat) (s : SQ) (id : Nat)
    (priority : Int) (options : AddOptions) :
    SQ × List QueueItem × List QueueItem :=
  let item := mkQueueItem opts id priority options
  process opts now { s with queue := sortQueue (s.queue ++ [item]) }

/-! ## SmartQueue: event model of the whole lifecycle

The single-threaded event loop interleaves synchronous chunks: scheduling
bursts, timer callbacks, and the continuations of `processItem` after its
awaited operation settles.  `Step` has one constructor per such chunk,
with exactly the guards the source checks synchronously before mutating
the state.  `settled` and `startLog` are ghost observation logs (promise
settlements by item id; instants at which operations were started). -/

/-- A task settlement: errors are strings, values are numbers. -/
abbrev TaskSettle := TaskResult (List Char) Nat

/-- The error `clearQueue` rejects pending items with:
`new Error('Queue cleared')`. -/
def queueClearedError : List Char := "Queue cleared".toList

structure QState where
  queue : List QueueItem
  running : List QueueItem
  delayTimers : List QueueItem
  retryTimers : List QueueItem
  lastProcessTimes : List Nat
  settled : List (Nat × TaskSettle)
  startLog : List Nat
  now : Nat
  deriving DecidableEq, Repr

/-- A fresh `SmartQueue`: everything empty. -/
def initQState : QState :=
  { queue := [], running := [], delayTimers := [], retryTimers := []
    lastProcessTimes := [], settled := [], startLog := [], now := 0 }

/-- The synchronous queue mutation of `add`: push then stable re-sort. -/
def enqueue (s : QState) (item : QueueItem) : QState :=
  { s with queue := sortQueue (s.queue ++ [item]) }

/-- A start: `checkRateLimit` has just pruned the window (it never
appends anything), the head item is shifted, marked running with its
attempt counter bumped (`processItem` increments before invoking), and
the instant is logged (ghost). -/
def startState (opts : ResolvedOptions) (s : QState) (item : QueueItem)
    (rest : List QueueItem) : QState :=
  { s with
    queue := rest
    running := { item with attempts := item.attempts + 1 } :: s.running
    lastProcessTimes :=
      (checkRateLimit opts.rateLimitPerSecond s.lastProcessTimes s.now).1
    startLog := s.now :: s.startLog }

/-- The settlement a finishing operation produces, if any (none when the
failure is retried). -/
def settleDelta (item : QueueItem) (res : Except (List Char) Nat) :
    List (Nat × TaskSettle) :=
  match res with
  | .ok v => [(item.id, .resolved v)]
  | .error _e =>
    if item.maxAttempts ≤ item.attempts then
      [(item.id, .rejected _e)]
    else []

/-- The continuation of `processItem` once its awaited operation settles
with `res`, from the source: resolve on success; on failure reject when
`attempts >= maxAttempts`, else park the item for a backoff re-queue; in
both cases `finally` removes the item from `running`. -/
def finishItem (s : QState) (item : QueueItem) (res : Except (List Char) Nat) :
    QState :=
  match res with
  | .ok v =>
    { s with running := s.running.erase item
             settled := (item.id, .resolved v) :: s.settled }
  | .error e =>
    if item.maxAttempts ≤ item.attempts then
      { s with running := s.running.erase item
               settled := (item.id, .rejected e) :: s.settled }
    else
      { s with running := s.running.erase item
               retryTimers := item :: s.retryTimers }

/-- From the source, `clearQueue`: reject every pending item with
`Error('Queue cleared')` and empty the queue; running tasks and timers
are untouched. -/
def clearQueue (s : QState) : QState :=
  { s with
    queue := []
    settled :=
      s.queue.map (fun it => (it.id, TaskResult.rejected queueClearedError))
        ++ s.settled }

/-- One synchronous chunk of the event loop, with the guards the source
checks immediately (with no intervening `await`) before each mutation. -/
inductive Step (opts : ResolvedOptions) : QState → QState → Prop where
  | tick (s : QState) (dt : Nat) :
      Step opts s { s with now := s.now + dt }
  | add (s : QState) (item : QueueItem) (h0 : item.attempts = 0) :
      Step opts s (enqueue s item)
  | start (s : QState) (item : QueueItem) (rest : List QueueItem)
      (hq : s.queue = item :: rest)
      (hc : s.running.length < opts.maxConcurrency)
      (hr : (checkRateLimit opts.rateLimitPerSecond s.lastProcessTimes s.now).2
              = true)
      (hd : item.delay = 0) :
      Step opts s (startState opts s item rest)
  | defer (s : QState) (item : QueueItem) (rest : List QueueItem)
      (hq : s.queue = item :: rest)
      (hc : s.running.length < opts.maxConcurrency)
      (hr : (checkRateLimit opts.rateLimitPerSecond s.lastProcessTimes s.now).2
              = true)
      (hd : 0 < item.delay) :
      Step opts s
        { s with
          queue := rest
          delayTimers := item :: s.delayTimers
          lastProcessTimes :=
            (checkRateLimit opts.rateLimitPerSecond s.lastProcessTimes s.now).1 }
  | delayFire (s : QState) (item : QueueItem) (h : item ∈ s.delayTimers) :
      Step opts s
        { s with delayTimers := s.delayTimers.erase item
                 queue := item :: s.queue }
  | finish (s : QState) (item : QueueItem) (res : Except (List Char) Nat)
      (h : item ∈ s.running) :
      Step opts s (finishItem s item res)
  | retryFire (s : QState) (item : QueueItem) (h : item ∈ s.retryTimers) :
      Step opts s
        { s with retryTimers := s.retryTimers.erase item
                 queue := sortQueue (s.queue ++ [item]) }
  | clear (s : QState) :
      Step opts s (clearQueue s)

/-- The states a `SmartQueue` can reach from a fresh instance. -/
inductive Reachable (opts : ResolvedOptions) : QState → Prop where
  | init : Reachable opts initQState
  | step {s t : QState} : Reachable opts s → Step opts s t → Reachable opts t

/-! ## SmartQueue: batch aggregation (`addBatch`) -/

/-- JS `Promise.all` over settlements: resolves with the list of values when
every promise resolves, otherwise rejects with the error of the first
rejected promise — sibling outcomes are discarded. -/
def promiseAll {ε α : Type} : List (Except ε α) → Except ε (List α)
  | [] => .ok []
  | .ok v :: rest => (promiseAll rest).map (fun vs => v :: vs)
  | .error e :: _ => .error e

/-- The settlement of one task submitted through `add`: the item's
attempt budget is `options.maxAttempts || defaultMaxAttempts`, and
`processItem` drives the operation to its final settlement. -/
def addOutcome {ε α : Type} (opts : ResolvedOptions) (options : AddOptions)
    (op : Nat → Except ε α) : Except ε α :=
  match (runItem opts.retryDelay op 0
      (jsOrNat options.maxAttempts opts.defaultMaxAttempts)).1 with
  | .resolved v => .ok v
  | .rejected e => .error e

/-- From the source, `addBatch`: map `add` over the operations and
aggregate the promises with `Promise.all`. -/
def addBatch {ε α : Type} (opts : ResolvedOptions) (options : AddOptions)
    (ops : List (Nat → Except ε α)) : Except ε (List α) :=
  promiseAll (ops.map (addOutcome opts options))

/-- Follows the spec's words (for comparison with `addBatch`): an
"allSettled"-style aggregation, the future of the list of every
sibling's own outcome, so partial success stays observable. -/
def addBatchAllSettled {ε α : Type} (opts : ResolvedOptions)
    (options : AddOptions) (ops : List (Nat → Except ε α)) :
    List (Except ε α) :=
  ops.map (addOutcome opts options)

/-! ## Theorems: phone number helpers -/

theorem digitsOnly_all_digit (s : List Char) :
    ∀ c ∈ digitsOnly s, c.isDigit := by
  intro c hc
  exact (List.mem_filter.mp hc).2

theorem digitsOnly_not_startsWith_plus (s : List Char) :
    startsWithChar (digitsOnly s) '+' = false := by
  cases h : digitsOnly s with
  | nil => rfl
  | cons d rest =>
    have hd : d.isDigit := by
      have : d ∈ digitsOnly s := by rw [h]; exact List.mem_cons_self d rest
      exact digitsOnly_all_digit s d this
    simp only [startsWithChar, decide_eq_false_iff_not]
    intro hEq
    rw [hEq] at hd
    simp [Char.isDigit] at hd

/-- C8: `formatPhoneNumber` is a pure function of the input's digit
subsequence: it returns exactly the digits of the input, with the
default-region country code `'1'` prepended precisely when that digit
subsequence has length 10 and does not already start with `'1'`. -/
theorem formatPhoneNumber_digits_country_code (s : List Char) :
    formatPhoneNumber s =
      if (digitsOnly s).length = 10 ∧ startsWithChar (digitsOnly s) '1' = false
      then '1' :: digitsOnly s
      else digitsOnly s := by
  unfold formatPhoneNumber
  simp only [digitsOnly_not_startsWith_plus, if_false, Bool.false_eq_true]
  by_cases h1 : startsWithChar (digitsOnly s) '1' = true
  · by_cases h2 : (digitsOnly s).length = 10 <;> simp [h1, h2]
  · rw [Bool.not_eq_true] at h1
    by_cases h2 : (digitsOnly s).length = 10 <;> simp [h1, h2]

/-- C9: `validatePhoneNumber` accepts exactly the inputs whose digit
subsequence has length between 8 and 15 and starts with `'1'`; hence any
input whose digits do not start with `'1'` is rejected regardless of
length. -/
theorem validatePhoneNumber_spec (p : List Char) :
    (validatePhoneNumber p = true ↔
      8 ≤ (digitsOnly p).length ∧ (digitsOnly p).length ≤ 15 ∧
        startsWithChar (digitsOnly p) '1' = true) ∧
    (startsWithChar (digitsOnly p) '1' = false →
      validatePhoneNumber p = false) := by
  constructor
  · unfold validatePhoneNumber
    simp [Bool.and_eq_true, and_assoc]
  · intro h
    unfold validatePhoneNumber
    simp [h]

/-- C9 witness: a 12-digit UK number starting with `'4'` is rejected. -/
theorem validatePhoneNumber_spec_witness :
    validatePhoneNumber "+44 20 7946 0958".toList = false :=
  (validatePhoneNumber_spec "+44 20 7946 0958".toList).2 (by decide)

/-! ## Theorems: WhatsApp error handling -/

/-- C7 counterexample: the claim maps every 5xx status to
`provider_internal`, but the code's `switch` has a case only for 500;
status 502 falls into the `default` branch and is reported with the
catch-all message, not the internal-server one. -/
theorem handleError_5xx_counterexample :
    specErrorKind (.response 502 none) = ErrorKind.provider_internal ∧
    codeErrorKind (.response 502 none) = ErrorKind.unknown ∧
    handleError (.response 502 none) = "API Error: 502".toList ∧
    handleError (.response 500 none) =
      "Internal server error - Please try again later".toList ∧
    codeErrorKind (.response 502 none) ≠ specErrorKind (.response 502 none) := by
  refine ⟨by decide, rfl, by decide, rfl, by decide⟩

/-- C7 amended: `sendMessage` never rejects — it is total and always
returns a value carrying either a message id (success) or an error
message (failure); on an HTTP error the returned error is `handleError`'s
message, and `handleError`'s classification maps 400 to
`invalid_request`, 401 to `unauthorized`, 403 to `forbidden`, 404 to
`not_found`, 429 to `rate_limited`, exactly 500 (not every 5xx) to
`provider_internal`, no response to `network_unreachable`, and every
other status as well as setup errors to `unknown`. -/
theorem sendMessage_total_taxonomy :
    (∀ (creds : Bool) (net : SendAttempt),
        ((sendMessage creds net).success = true ∧
          (sendMessage creds net).messageId.isSome = true) ∨
        ((sendMessage creds net).success = false ∧
          (sendMessage creds net).error.isSome = true)) ∧
    (∀ (e : AxiosFailure),
        sendMessage true (.fail e) =
          { success := false, messageId := none,
            error := some (handleError e) }) ∧
    (∀ (d : Option (List Char)),
        codeErrorKind (.response 400 d) = ErrorKind.invalid_request ∧
        codeErrorKind (.response 401 d) = ErrorKind.unauthorized ∧
        codeErrorKind (.response 403 d) = ErrorKind.forbidden ∧
        codeErrorKind (.response 404 d) = ErrorKind.not_found ∧
        codeErrorKind (.response 429 d) = ErrorKind.rate_limited ∧
        codeErrorKind (.response 500 d) = ErrorKind.provider_internal) ∧
    codeErrorKind .request = ErrorKind.network_unreachable ∧
    (∀ (m : Option (List Char)), codeErrorKind (.setup m) = ErrorKind.unknown) ∧
    (∀ (s : Nat) (d : Option (List Char)),
        s ∉ ([400, 401, 403, 404, 429, 500] : List Nat) →
        codeErrorKind (.response s d) = ErrorKind.unknown ∧
        handleError (.response s d) =
          jsOrStr d ("API Error: ".toList ++ (Nat.repr s).toList)) := by
  refine ⟨?_, fun e => rfl, ?_, rfl, fun m => rfl, ?_⟩
  · intro creds net
    cases creds with
    | false => right; exact ⟨rfl, rfl⟩
    | true =>
      cases net with
      | ok msgId => left; exact ⟨rfl, rfl⟩
      | fail e => right; exact ⟨rfl, rfl⟩
  · intro d
    exact ⟨rfl, rfl, rfl, rfl, rfl, rfl⟩
  · intro s d hs
    simp only [List.mem_cons, List.not_mem_nil, or_false, not_or] at hs
    obtain ⟨h400, h401, h403, h404, h429, h500⟩ := hs
    constructor
    · simp [codeErrorKind, h400, h401, h403, h404, h429, h500]
    · simp [handleError, h400, h401, h403, h404, h429, h500]

/-- C7 witness: the amended taxonomy evaluated at status 502. -/
theorem sendMessage_total_taxonomy_witness :
    codeErrorKind (.response 502 none) = ErrorKind.unknown ∧
    handleError (.response 502 none) =
      jsOrStr none ("API Error: ".toList ++ (Nat.repr 502).toList) :=
  sendMessage_total_taxonomy.2.2.2.2.2 502 none (by decide)

/-! ## Theorems: the retry lifecycle (`processItem`) -/

theorem runItem_resolve {ε α : Type} (rd : Nat) (op : Nat → Except ε α)
    (attempts maxAttempts : Nat) (v : α) (hop : op (attempts + 1) = .ok v) :
    runItem rd op attempts maxAttempts = (.resolved v, 1, []) := by
  rw [runItem.eq_def]
  simp [hop]

theorem runItem_reject {ε α : Type} (rd : Nat) (op : Nat → Except ε α)
    (attempts maxAttempts : Nat) (e : ε) (hop : op (attempts + 1) = .error e)
    (hmax : maxAttempts ≤ attempts + 1) :
    runItem rd op attempts maxAttempts = (.rejected e, 1, []) := by
  rw [runItem.eq_def]
  simp [hop, hmax]

theorem runItem_retry {ε α : Type} (rd : Nat) (op : Nat → Except ε α)
    (attempts maxAttempts : Nat) (e : ε) (hop : op (attempts + 1) = .error e)
    (hmax : attempts + 1 < maxAttempts) :
    runItem rd op attempts maxAttempts =
      ((runItem rd op (attempts + 1) maxAttempts).1,
        (runItem rd op (attempts + 1) maxAttempts).2.1 + 1,
        rd * 2 ^ attempts :: (runItem rd op (attempts + 1) maxAttempts).2.2) := by
  rw [runItem.eq_def]
  simp [hop, Nat.not_le.mpr hmax]

/-- An operation that throws on every invocation is invoked once per
remaining attempt, each non-final failure backs off
`retryDelay * 2 ^ (attempts - 1)`, and the final settlement is the last
error. -/
theorem runItem_const_error {ε α : Type} (rd : Nat) (err : Nat → ε)
    (attempts maxAttempts : Nat) (h : attempts < maxAttempts) :
    runItem (α := α) rd (fun k => Except.error (err k)) attempts maxAttempts =
      (.rejected (err maxAttempts), maxAttempts - attempts,
        (List.range (maxAttempts - attempts - 1)).map
          (fun k => rd * 2 ^ (attempts + k))) := by
  obtain ⟨n, hn⟩ : ∃ n, maxAttempts - attempts = n + 1 := ⟨maxAttempts - attempts - 1, by omega⟩
  induction n generalizing attempts with
  | zero =>
    have ha : maxAttempts = attempts + 1 := by omega
    rw [runItem_reject rd _ attempts maxAttempts (err (attempts + 1)) rfl (by omega)]
    rw [hn, ha]
    simp
  | succ m ih =>
    have hlt : attempts + 1 < maxAttempts := by omega
    rw [runItem_retry rd _ attempts maxAttempts (err (attempts + 1)) rfl hlt]
    rw [ih (attempts + 1) hlt (by omega)]
    simp only [Prod.mk.injEq]
    refine ⟨by trivial, by omega, ?_⟩
    have h1 : maxAttempts - (attempts + 1) - 1 = m := by omega
    have h2 : maxAttempts - attempts - 1 = m + 1 := by omega
    rw [h1, h2]
    rw [show m + 1 = m.succ from rfl, List.range_succ_eq_map]
    simp only [List.map_cons, List.map_map, Nat.add_zero, List.cons.injEq]
    refine ⟨by trivial, ?_⟩
    refine List.map_congr_left ?_
    intro k _
    simp only [Function.comp]
    congr 2
    omega

/-- C2: a task whose operation always throws, submitted with an effective
attempt budget `n ≥ 1`, is invoked exactly `n` times, each of the `n - 1`
non-final failures is re-queued after `retryDelay * 2 ^ (attempts - 1)`
(attempt count starting at 1), and the promise finally rejects with the
last error. -/
theorem retry_exhausts_maxAttempts {ε α : Type} (rd n : Nat) (err : Nat → ε)
    (hn : 1 ≤ n) :
    runItem (α := α) rd (fun k => Except.error (err k)) 0 n =
      (.rejected (err n), n, (List.range (n - 1)).map (fun k => rd * 2 ^ k)) := by
  have h := runItem_const_error (α := α) rd err 0 n (by omega)
  simpa using h

/-- C2 witness: three attempts at `retryDelay = 1000` give settlements
`[1000, 2000]` between the three invocations and a final rejection with
the third error. -/
theorem retry_exhausts_maxAttempts_witness :
    runItem (α := Nat) 1000 (fun k => Except.error k) 0 3 =
      (.rejected 3, 3, [1000, 2000]) := by
  have h := retry_exhausts_maxAttempts (α := Nat) 1000 3 (fun k => k) (by decide)
  rw [h]
  decide

theorem jsOrNat_pos (x : Option Nat) (d : Nat) (hd : 0 < d) :
    0 < jsOrNat x d := by
  cases x with
  | none => exact hd
  | some v =>
    by_cases hv : v = 0
    · simpa [jsOrNat, hv]
    · simp only [jsOrNat, hv, if_false]
      omega

/-- C10: `add` falls back to the instance defaults whenever
`options.maxAttempts` or `options.delay` is `0` or omitted (JS `||` on a
falsy value); the constructor resolves `defaultMaxAttempts` to 3 when
unset; no task can be configured with a zero attempt budget; and a task
submitted with `maxAttempts: 0` under default options whose operation
always throws is invoked exactly 3 times before its promise rejects. -/
theorem add_zero_options_use_defaults :
    (∀ (opts : ResolvedOptions) (id : Nat) (p : Int),
        (mkQueueItem opts id p { maxAttempts := some 0 }).maxAttempts
            = opts.defaultMaxAttempts ∧
        (mkQueueItem opts id p { maxAttempts := none }).maxAttempts
            = opts.defaultMaxAttempts ∧
        (mkQueueItem opts id p { delay := some 0 }).delay = opts.defaultDelay ∧
        (mkQueueItem opts id p { delay := none }).delay = opts.defaultDelay) ∧
    (resolveOptions {}).defaultMaxAttempts = 3 ∧
    (∀ (options : QueueOptions) (o : AddOptions) (id : Nat) (p : Int),
        0 < (mkQueueItem (resolveOptions options) id p o).maxAttempts) ∧
    (∀ (rd : Nat) (err : Nat → Nat),
        runItem (α := Nat) rd (fun k => Except.error (err k)) 0
            ((mkQueueItem (resolveOptions {}) 1 0
              { maxAttempts := some 0 }).maxAttempts) =
          (.rejected (err 3), 3, [rd, rd * 2])) := by
  refine ⟨fun opts id p => ⟨rfl, rfl, rfl, rfl⟩, rfl, ?_, ?_⟩
  · intro options o id p
    exact jsOrNat_pos _ _ (jsOrNat_pos _ _ (by decide))
  · intro rd err
    have hm : (mkQueueItem (resolveOptions {}) 1 0
        { maxAttempts := some 0 }).maxAttempts = 3 := rfl
    rw [hm, runItem_const_error (α := Nat) rd err 0 3 (by decide)]
    simp [List.range_succ]

/-! ## Theorems: batch aggregation (`addBatch`) -/

theorem promiseAll_ok_iff {ε α : Type} (l : List (Except ε α)) (vs : List α) :
    promiseAll l = .ok vs ↔ l = vs.map Except.ok := by
  induction l generalizing vs with
  | nil =>
    cases vs <;> simp [promiseAll]
  | cons x rest ih =>
    cases x with
    | ok v =>
      cases h : promiseAll rest with
      | ok ws =>
        cases vs with
        | nil =>
          simp only [promiseAll, h, Except.map, List.map_nil]
          constructor
          · intro hEq; cases hEq
          · intro hEq; cases hEq
        | cons w ws' =>
          simp only [promiseAll, h, Except.map, List.map_cons, List.cons.injEq]
          constructor
          · intro hEq
            injection hEq with hEq
            obtain ⟨hv, hws⟩ := List.cons.inj hEq
            exact ⟨congrArg Except.ok hv, (ih ws').mp (by rw [h, hws])⟩
          · rintro ⟨hv, hrest⟩
            have := (ih ws').mpr hrest
            rw [h] at this
            injection this with this
            injection hv with hv
            rw [hv, this]
      | error e =>
        simp only [promiseAll, h, Except.map]
        constructor
        · intro hEq; cases hEq
        · intro hEq
          cases vs with
          | nil => cases hEq
          | cons w ws' =>
            simp only [List.map_cons, List.cons.injEq] at hEq
            have := (ih ws').mpr hEq.2
            rw [h] at this
            cases this
    | error e =>
      simp only [promiseAll]
      constructor
      · intro hEq; cases hEq
      · intro hEq
        cases vs with
        | nil => cases hEq
        | cons w ws' => simp at hEq

theorem promiseAll_error_first {ε α : Type} (l : List (Except ε α)) (e : ε)
    (h : promiseAll l = .error e) :
    ∃ pre post, l = pre ++ Except.error e :: post ∧
      ∀ y ∈ pre, ∃ v, y = Except.ok v := by
  induction l with
  | nil => cases h
  | cons x rest ih =>
    cases x with
    | ok v =>
      simp only [promiseAll] at h
      cases hr : promiseAll rest with
      | ok ws => rw [hr] at h; cases h
      | error e' =>
        rw [hr] at h
        injection h with h
        subst h
        obtain ⟨pre, post, hsplit, hpre⟩ := ih hr
        refine ⟨Except.ok v :: pre, post, by rw [hsplit]; rfl, ?_⟩
        intro y hy
        rcases List.mem_cons.mp hy with hy | hy
        · exact ⟨v, hy⟩
        · exact hpre y hy
    | error e' =>
      simp only [promiseAll] at h
      injection h with h
      subst h
      exact ⟨[], rest, rfl, by simp⟩

/-- C5 counterexample: two batches that differ only in the sibling after
a rejected operation produce identical `addBatch` futures, while the
spec's allSettled-style aggregation distinguishes them — so the sibling's
partial success is not observable from `addBatch`'s result. -/
theorem addBatch_not_allSettled :
    addBatch (resolveOptions {}) { maxAttempts := some 1 }
        [fun _ => Except.error 7, fun _ => (Except.ok 42 : Except Nat Nat)]
      = Except.error 7 ∧
    addBatch (resolveOptions {}) { maxAttempts := some 1 }
        [fun _ => Except.error 7, fun _ => (Except.error 9 : Except Nat Nat)]
      = Except.error 7 ∧
    addBatchAllSettled (resolveOptions {}) { maxAttempts := some 1 }
        [fun _ => Except.error 7, fun _ => (Except.ok 42 : Except Nat Nat)]
      ≠ addBatchAllSettled (resolveOptions {}) { maxAttempts := some 1 }
        [fun _ => Except.error 7, fun _ => (Except.error 9 : Except Nat Nat)] := by
  have h7 : runItem (α := Nat) 1000 (fun _ => Except.error 7) 0 1
      = (.rejected 7, 1, []) :=
    runItem_reject 1000 _ 0 1 7 rfl (by omega)
  have h9 : runItem (α := Nat) 1000 (fun _ => Except.error 9) 0 1
      = (.rejected 9, 1, []) :=
    runItem_reject 1000 _ 0 1 9 rfl (by omega)
  have h42 : runItem (ε := Nat) 1000 (fun _ => Except.ok 42) 0 1
      = (.resolved 42, 1, []) :=
    runItem_resolve 1000 _ 0 1 42 rfl
  refine ⟨?_, ?_, ?_⟩ <;>
    simp [addBatch, addBatchAllSettled, addOutcome, resolveOptions, jsOrNat,
      h7, h9, h42, promiseAll]

/-- C5 amended: `addBatch` is mapping `add` over the operations and
aggregating with `Promise.all`, not allSettled: it resolves with the
in-order list of values exactly when every sibling resolves, and when it
rejects it carries only the error of the first rejected sibling (every
earlier sibling resolved) — the outcomes of the other siblings, and hence
partial success, are not observable in the returned future. -/
theorem addBatch_promiseAll_first_rejection {ε α : Type}
    (opts : ResolvedOptions) (options : AddOptions)
    (ops : List (Nat → Except ε α)) :
    addBatch opts options ops
        = promiseAll (addBatchAllSettled opts options ops) ∧
    (∀ vs : List α,
        addBatch opts options ops = .ok vs ↔
          addBatchAllSettled opts options ops = vs.map Except.ok) ∧
    (∀ e : ε,
        addBatch opts options ops = .error e →
          ∃ pre post,
            addBatchAllSettled opts options ops
                = pre ++ Except.error e :: post ∧
            ∀ y ∈ pre, ∃ v, y = Except.ok v) :=
  ⟨rfl,
    fun vs => promiseAll_ok_iff (addBatchAllSettled opts options ops) vs,
    fun e h => promiseAll_error_first (addBatchAllSettled opts options ops) e h⟩

/-- C5 witness: the empty batch resolves with the empty list. -/
theorem addBatch_promiseAll_first_rejection_witness :
    addBatch (resolveOptions {}) {} ([] : List (Nat → Except Nat Nat))
      = Except.ok [] :=
  ((addBatch_promiseAll_first_rejection (resolveOptions {}) {} []).2.1 []).mpr
    (by simp [addBatchAllSettled])

/-! ## Theorems: pause, concurrency, rate window, clearQueue -/

theorem finishItem_running (s : QState) (item : QueueItem)
    (res : Except (List Char) Nat) :
    (finishItem s item res).running = s.running.erase item := by
  cases res with
  | ok v => rfl
  | error e =>
    by_cases hc : item.maxAttempts ≤ item.attempts
    · simp only [finishItem, if_pos hc]
    · simp only [finishItem, if_neg hc]

theorem finishItem_lastProcessTimes (s : QState) (item : QueueItem)
    (res : Except (List Char) Nat) :
    (finishItem s item res).lastProcessTimes = s.lastProcessTimes := by
  cases res with
  | ok v => rfl
  | error e =>
    by_cases hc : item.maxAttempts ≤ item.attempts
    · simp only [finishItem, if_pos hc]
    · simp only [finishItem, if_neg hc]

theorem finishItem_settled (s : QState) (item : QueueItem)
    (res : Except (List Char) Nat) :
    (finishItem s item res).settled = settleDelta item res ++ s.settled := by
  cases res with
  | ok v => rfl
  | error e =>
    by_cases hc : item.maxAttempts ≤ item.attempts
    · simp only [finishItem, settleDelta, if_pos hc]
      rfl
    · simp only [finishItem, settleDelta, if_neg hc]
      rfl

/-- C4 (bug witness): `pause()` only writes `processing = false`, which
on an idle queue is a no-op, and the very next `add()` call immediately
starts the new task's operation while the queue is supposedly paused —
`processing` is the loop's re-entrancy guard, not a pause switch, so no
`resume()` was needed to start new work. -/
theorem pause_then_add_starts_task :
    pause initSQ = initSQ ∧
    (addTask (resolveOptions {}) 0 (pause initSQ) 1 0 {}).2.1
      = [mkQueueItem (resolveOptions {}) 1 0 {}] ∧
    (addTask (resolveOptions {}) 0 (pause initSQ) 1 0 {}).1.running = [1] := by
  refine ⟨rfl, ?_, ?_⟩ <;> decide

/-- C3: in every reachable state the running set holds at most
`maxConcurrency` tasks — each start is guarded by a synchronous
`running.size < maxConcurrency` check, and every other event leaves the
running set the same size or smaller. -/
theorem running_le_maxConcurrency (opts : ResolvedOptions) (s : QState)
    (h : Reachable opts s) : s.running.length ≤ opts.maxConcurrency := by
  induction h with
  | init => simp [initQState]
  | step hr hstep ih =>
    cases hstep with
    | tick dt => simpa using ih
    | add item h0 => simpa [enqueue] using ih
    | start item rest hq hc hrate hd => simpa [startState] using hc
    | defer item rest hq hc hrate hd => simpa using ih
    | delayFire item hmem => simpa using ih
    | finish item res hmem =>
      rw [finishItem_running]
      exact le_trans (List.Sublist.length_le (List.erase_sublist item _)) ih
    | retryFire item hmem => simpa using ih
    | clear => simpa [clearQueue] using ih

/-- C3 witness: the invariant at the initial state of a queue with
default options. -/
theorem running_le_maxConcurrency_witness :
    initQState.running.length ≤ (resolveOptions {}).maxConcurrency :=
  running_le_maxConcurrency (resolveOptions {}) initQState Reachable.init

/-- C1 (bug witness): no transition of the queue ever appends a
timestamp to `lastProcessTimes` — the window is empty in every reachable
state, so `checkRateLimit` always passes — and with `rateLimitPerSecond
= 1` a reachable state exists whose ghost start log records two
operation starts at the same instant with the rate window still empty:
starts are neither recorded nor bounded by the configured cap. -/
theorem rateWindow_never_populated :
    (∀ (opts : ResolvedOptions) (s : QState),
        Reachable opts s → s.lastProcessTimes = []) ∧
    (∃ s : QState,
        Reachable (resolveOptions { rateLimitPerSecond := some 1 }) s ∧
        s.startLog = [0, 0] ∧ s.now = 0 ∧ s.lastProcessTimes = []) := by
  constructor
  · intro opts s h
    induction h with
    | init => rfl
    | step hr hstep ih =>
      cases hstep with
      | tick dt => simpa using ih
      | add item h0 => simpa [enqueue] using ih
      | start item rest hq hc hrate hd =>
        simp [startState, checkRateLimit, ih]
      | defer item rest hq hc hrate hd => simp [checkRateLimit, ih]
      | delayFire item hmem => simpa using ih
      | finish item res hmem =>
        rw [finishItem_lastProcessTimes]
        exact ih
      | retryFire item hmem => simpa using ih
      | clear => simpa [clearQueue] using ih
  · exact ⟨_,
      Reachable.step
        (Reachable.step
          (Reachable.step
            (Reachable.step Reachable.init
              (Step.add initQState ⟨1, 0, 0, 3, 0⟩ rfl))
            (Step.add (enqueue initQState ⟨1, 0, 0, 3, 0⟩) ⟨2, 0, 0, 3, 0⟩ rfl))
          (Step.start (enqueue (enqueue initQState ⟨1, 0, 0, 3, 0⟩) ⟨2, 0, 0, 3, 0⟩)
            ⟨1, 0, 0, 3, 0⟩ [⟨2, 0, 0, 3, 0⟩]
            (by decide) (by decide) (by decide) rfl))
        (Step.start _ ⟨2, 0, 0, 3, 0⟩ []
          (by decide) (by decide) (by decide) rfl),
      by decide, by decide, by decide⟩

/-- C1 witness: the always-empty window, at the initial state. -/
theorem rateWindow_never_populated_witness :
    initQState.lastProcessTimes = [] :=
  rateWindow_never_populated.1 (resolveOptions {}) initQState Reachable.init

/-- C6: `clearQueue` rejects exactly the pending items, each with the
designated cancellation error `Error('Queue cleared')`, and empties the
pending list; the running set is untouched, the finish transition of any
running task stays enabled afterwards, and a finishing task's settlement
(resolution with its value, rejection with its own error, or a retry
re-queue) never depends on the pending list — running tasks settle
normally after a clear. -/
theorem clearQueue_cancels_pending_only (opts : ResolvedOptions) (s : QState) :
    (clearQueue s).queue = [] ∧
    (clearQueue s).running = s.running ∧
    (∀ it ∈ s.queue,
        (it.id, TaskResult.rejected queueClearedError) ∈ (clearQueue s).settled) ∧
    (∀ (it : QueueItem) (res : Except (List Char) Nat), it ∈ s.running →
        Step opts (clearQueue s) (finishItem (clearQueue s) it res)) ∧
    (∀ (t : QState) (it : QueueItem) (res : Except (List Char) Nat),
        (finishItem t it res).settled = settleDelta it res ++ t.settled ∧
        (finishItem t it res).running = t.running.erase it) := by
  refine ⟨rfl, rfl, ?_, ?_, ?_⟩
  · intro it hit
    exact List.mem_append_left _
      (List.mem_map_of_mem (fun it => (it.id, TaskResult.rejected queueClearedError)) hit)
  · intro it res hit
    exact Step.finish (clearQueue s) it res hit
  · intro t it res
    exact ⟨finishItem_settled t it res, finishItem_running t it res⟩

/-- C6 witness: clearing a queue with one pending and one running item
rejects the pending item with the cancellation error. -/
theorem clearQueue_cancels_pending_only_witness :
    ((1 : Nat), TaskResult.rejected queueClearedError) ∈
      (clearQueue
        { queue := [(⟨1, 0, 0, 3, 0⟩ : QueueItem)]
          running := [(⟨2, 0, 1, 3, 0⟩ : QueueItem)]
          delayTimers := [], retryTimers := [], lastProcessTimes := []
          settled := [], startLog := [], now := 0 }).settled :=
  (clearQueue_cancels_pending_only (resolveOptions {})
      { queue := [(⟨1, 0, 0, 3, 0⟩ : QueueItem)]
        running := [(⟨2, 0, 1, 3, 0⟩ : QueueItem)]
        delayTimers := [], retryTimers := [], lastProcessTimes := []
        settled := [], startLog := [], now := 0 }).2.2.1
    ⟨1, 0, 0, 3, 0⟩ (by decide)

end Kyvro
